import Mathlib

/-!
# Verification of `app/producer.py` (kafka-test-producer)

A shallow embedding of the Kafka load-generator script `app/producer.py`.
The script reads its configuration from environment variables, builds a
`confluent_kafka.Producer` configuration dictionary, computes a batch plan
(`total_messages`, `batches`) by ceiling division, and then runs an outer
loop of `batches` iterations; each iteration polls the client, calls
`send(MESSAGE, JOB_TOPIC_NAME)` exactly `JOB_BATCH_SIZE` times (adding
`JOB_MSG_BYTES` to `bytes_sent` after each call), polls again, and updates
the progress display.  After the loop it flushes the client and prints the
total.  `send` retries `producer.produce` while the client raises
`BufferError`, interleaving `producer.poll(0.1)` calls.

We embed the run as a function from the configuration and a client
behaviour oracle (how many `BufferError`s precede acceptance of each
message) to the list of observable events of the run, together with the
final mutable state (`running`, `bytes_sent`).  Machine arithmetic is
modelled with `Nat`/`ℚ`: the script uses Python unbounded integers, and its
float divisions (`math.ceil(a / b)`, scaling by `1024.0`, `1e-9`) are exact
real-number operations at every realistic magnitude, so they are embedded
as exact `Nat` ceiling division and `ℚ` division.
-/

/-- The integer configuration read from the environment (lines 21-24 of
`producer.py`): `JOB_MSG_BYTES` is the per-message payload size `M`,
`JOB_MAX_BYTES` the target byte volume `T`, `JOB_BATCH_SIZE` the batch
size `B`. -/
structure Config where
  JOB_MAX_BYTES : Nat
  JOB_MSG_BYTES : Nat
  JOB_BATCH_SIZE : Nat
deriving DecidableEq

/-- Line 93: `total_messages = math.ceil(JOB_MAX_BYTES / JOB_MSG_BYTES)`.
Python's `/` is real division followed by `math.ceil`; for positive
integers this is the ceiling `⌈T / M⌉`, embedded as the exact `Nat`
ceiling division `(T + M - 1) / M` (proved equal to `⌈(T : ℚ) / M⌉₊`
below). -/
def total_messages (cfg : Config) : Nat :=
  (cfg.JOB_MAX_BYTES + cfg.JOB_MSG_BYTES - 1) / cfg.JOB_MSG_BYTES

/-- Line 94: `batches = math.ceil(total_messages / JOB_BATCH_SIZE)`. -/
def batches (cfg : Config) : Nat :=
  (total_messages cfg + cfg.JOB_BATCH_SIZE - 1) / cfg.JOB_BATCH_SIZE

/-- Observable events of a run of `main`.  `pollEv ms` is a call
`producer.poll` with timeout `ms` milliseconds; `produceAttempt i` is a
`producer.produce` call for the `i`-th message of the run; `bufferError i`
is that call raising `BufferError`; `enqueued i` is that call returning
successfully; `incrBytes` is the statement `bytes_sent += JOB_MSG_BYTES`
(line 109); `batchStart` marks the top of an outer-loop iteration that
passed the `running` check; `earlyExit` marks the `break` taken when
`running` is false (lines 100-101); `reportProgress b` is the progress
update (lines 119-123) with the current `bytes_sent`; `flushEv` is
`producer.flush()` (line 126); `reportTotal b` is the final print
(line 127); `callbackEv err off` is an invocation of `on_delivery_cb`. -/
inductive Event where
  | pollEv (ms : Nat)
  | produceAttempt (i : Nat)
  | bufferError (i : Nat)
  | enqueued (i : Nat)
  | incrBytes
  | batchStart
  | earlyExit
  | reportProgress (b : Nat)
  | flushEv
  | reportTotal (b : Nat)
  | callbackEv (err : Option String) (off : Nat)
deriving DecidableEq

/-- The mutable state of `main`'s loop: the cooperative stop flag
`running` (line 74), the byte counter `bytes_sent` (line 75), and the
index of the next message to produce (implicit in the loop position). -/
structure LoopState where
  running : Bool
  bytes_sent : Nat
  nextMsg : Nat
deriving DecidableEq

/-- One call of `send(payload, topic)` (lines 82-90) for the `i`-th
message, against a client that raises `BufferError` on the first `k`
`produce` calls for this message and accepts the next one.  The `while
True` loop retries `producer.produce` after each `BufferError`, calling
`producer.poll(0.1)` (a 100 ms bounded drive of the callback queue)
between consecutive attempts, and `break`s on success. -/
def send (i : Nat) : Nat → List Event
  | 0 => [.produceAttempt i, .enqueued i]
  | k + 1 => [.produceAttempt i, .bufferError i, .pollEv 100] ++ send i k

/-- The inner batch loop (lines 107-109): `for _ in range(JOB_BATCH_SIZE):
send(MESSAGE, JOB_TOPIC_NAME); bytes_sent += JOB_MSG_BYTES`, here run for
`n` remaining iterations.  `fulls i` is the client oracle: the number of
`BufferError`s raised before message `i` is accepted. -/
def sendBatch (fulls : Nat → Nat) (M : Nat) : Nat → LoopState → List Event × LoopState
  | 0, s => ([], s)
  | n + 1, s =>
    let evs := send s.nextMsg (fulls s.nextMsg) ++ [.incrBytes]
    let s' : LoopState :=
      { s with bytes_sent := s.bytes_sent + M, nextMsg := s.nextMsg + 1 }
    let rest := sendBatch fulls M n s'
    (evs ++ rest.1, rest.2)

/-- The outer loop (lines 99-123): `for _ in range(batches)`, here with
`n` remaining iterations.  Each iteration first checks the cooperative
stop flag (`if not running: break`), then `producer.poll(0)`, the inner
batch of `B` sends, another `producer.poll(0)`, and the progress update
with the current `bytes_sent`. -/
def runBatches (fulls : Nat → Nat) (M B : Nat) : Nat → LoopState → List Event × LoopState
  | 0, s => ([], s)
  | n + 1, s =>
    if s.running then
      let batch := sendBatch fulls M B s
      let rest := runBatches fulls M B n batch.2
      ([.batchStart, .pollEv 0] ++ batch.1 ++
        [.pollEv 0, .reportProgress batch.2.bytes_sent] ++ rest.1, rest.2)
    else
      ([.earlyExit], s)

/-- Initial state of `main` (lines 74-75): `running = True`,
`bytes_sent = 0`, no message produced yet. -/
def initState : LoopState :=
  { running := true, bytes_sent := 0, nextMsg := 0 }

/-- The event trace of a full run of `main` (lines 93-128): the outer
loop over `batches cfg` iterations, then `producer.flush()` and the final
`Total bytes sent` report of the final `bytes_sent`. -/
def mainTrace (cfg : Config) (fulls : Nat → Nat) : List Event :=
  let run := runBatches fulls cfg.JOB_MSG_BYTES cfg.JOB_BATCH_SIZE (batches cfg) initState
  run.1 ++ [.flushEv, .reportTotal run.2.bytes_sent]

/-- The state of `main` after the outer loop (what line 127 reports). -/
def mainFinal (cfg : Config) (fulls : Nat → Nat) : LoopState :=
  (runBatches fulls cfg.JOB_MSG_BYTES cfg.JOB_BATCH_SIZE (batches cfg) initState).2

/-- `bytes_sent` is mutated by exactly one statement of the program:
`bytes_sent += JOB_MSG_BYTES` (line 109, the `incrBytes` event).  Every
other event — polls, produce attempts, buffer errors, delivery callbacks,
reports, flush — leaves it unchanged. -/
def applyEvent (M : Nat) (b : Nat) : Event → Nat
  | .incrBytes => b + M
  | _ => b

/-- The value of `bytes_sent` after a list of events, starting from 0. -/
def bytesAfter (M : Nat) (l : List Event) : Nat :=
  l.foldl (applyEvent M) 0

/-- Event classifiers used to state counting properties. -/
def isProduceAttempt : Event → Bool
  | .produceAttempt _ => true
  | _ => false

def isEnqueuedEv : Event → Bool
  | .enqueued _ => true
  | _ => false

def isBufferErrorEv : Event → Bool
  | .bufferError _ => true
  | _ => false

def isPollEv : Event → Bool
  | .pollEv _ => true
  | _ => false

def isCallbackEv : Event → Bool
  | .callbackEv _ _ => true
  | _ => false

def isFlushEv : Event → Bool
  | .flushEv => true
  | _ => false

def isReportTotalEv : Event → Bool
  | .reportTotal _ => true
  | _ => false

def isBatchStartEv : Event → Bool
  | .batchStart => true
  | _ => false

def isEarlyExitEv : Event → Bool
  | .earlyExit => true
  | _ => false

def isIncrBytesEv : Event → Bool
  | .incrBytes => true
  | _ => false

/-- The unit-selection loop shared by `_fmt_bytes` and `_fmt_rate`
(lines 27-41): walk the unit list, returning the current value and unit as
soon as the value is below `1024.0`, dividing by `1024.0` otherwise, with
`fb` the fallback unit after the list is exhausted.  The divisions by the
power of two `1024.0` are exact in binary floating point (no underflow at
these magnitudes), so they are embedded as exact `ℚ` division. -/
def scaleLoop (fb : String) : ℚ → List String → ℚ × String
  | n, [] => (n, fb)
  | n, u :: us => if n < 1024 then (n, u) else scaleLoop fb (n / 1024) us

/-- `_fmt_bytes(n)` (lines 27-33): the scaled value, the chosen unit out
of `B/KB/MB/GB/TB` with fallback `PB`, and the number of decimal places of
the `:,.3f` format. -/
def _fmt_bytes (n : ℚ) : (ℚ × String) × Nat :=
  (scaleLoop "PB" n ["B", "KB", "MB", "GB", "TB"], 3)

/-- `_fmt_rate(bps)` (lines 35-41): the scaled value, the chosen unit out
of `B/s ... TB/s` with fallback `PB/s`, and the 2 decimal places of
`:,.2f`. -/
def _fmt_rate (bps : ℚ) : (ℚ × String) × Nat :=
  (scaleLoop "PB/s" bps ["B/s", "KB/s", "MB/s", "GB/s", "TB/s"], 2)

/-- The full unit ladder of the spec, `B/KB/MB/GB/TB/PB`. -/
def allUnits : List String := ["B", "KB", "MB", "GB", "TB", "PB"]

/-- The divisor-by-zero guard of line 115: `max(time.time() - start, 1e-9)`
uses the float literal `1e-9`, exactly `10⁻⁹` as a rational up to float
rounding of the literal (the rounding keeps it positive, which is all the
guard needs; we take the exact decimal value). -/
def epsilon : ℚ := 1 / 1000000000

/-- Lines 115-116: `elapsed = max(time.time() - start, 1e-9)` and
`rate = bytes_sent / elapsed`, as a function of the wall-clock elapsed
time (an external input to the program). -/
def reportedRate (bytes elapsed : ℚ) : ℚ :=
  bytes / max elapsed epsilon

/-- `on_delivery_cb(err, msg)` (lines 77-80): on a delivery error it
writes one line to `sys.stderr` naming the failed message's offset and the
error; on success (`err is None`) it writes nothing.  The closure touches
no other state, so it is embedded as a pure function from the callback
arguments to the list of stderr lines written. -/
def on_delivery_cb (err : Option String) (off : Nat) : List String :=
  match err with
  | some e =>
      ["Delivery failed for offset=" ++ toString off ++ " error=" ++ e ++ "\n"]
  | none => []

/-- A value of the producer configuration dictionary (lines 58-72): the
dict holds strings, numbers (`int` and the `float` of line 68, both
embedded in `ℚ`) and booleans. -/
inductive ConfValue where
  | s (v : String)
  | n (v : ℚ)
  | b (v : Bool)
deriving DecidableEq

/-- The environment variables the script reads (lines 14-23). -/
structure Env where
  KAFKA_BOOTSTRAP_SERVERS : String
  KAFKA_SECURITY_PROTOCOL : String
  KAFKA_SASL_MECHANISM : String
  KAFKA_SASL_USERNAME : String
  KAFKA_SASL_PASSWORD : String
  JOB_TOPIC_NAME : String
  JOB_MSG_BYTES : Nat
  JOB_MAX_BYTES : Nat
  JOB_LINGER_MS : Nat
  JOB_BATCH_SIZE : Nat
deriving DecidableEq

/-- Python string repetition `s * n`.  Line 63 multiplies the literal
`"******"` by the bool `len(KAFKA_SASL_PASSWORD) > 0`, which Python treats
as the integer 0 or 1. -/
def pyStrMul (s : String) : Nat → String
  | 0 => ""
  | n + 1 => s ++ pyStrMul s n

/-- The configuration dictionary passed to `Producer(...)` (lines 58-72),
entry by entry.  Line 63: `"sasl.password": "******" *
(len(KAFKA_SASL_PASSWORD) > 0)`.  Line 68 divides by the int literal
`1024` with Python's float `/`. -/
def producerConfig (e : Env) : List (String × ConfValue) :=
  [("bootstrap.servers", .s e.KAFKA_BOOTSTRAP_SERVERS),
   ("security.protocol", .s e.KAFKA_SECURITY_PROTOCOL),
   ("sasl.mechanisms", .s e.KAFKA_SASL_MECHANISM),
   ("sasl.username", .s e.KAFKA_SASL_USERNAME),
   ("sasl.password",
     .s (pyStrMul "******" (if 0 < e.KAFKA_SASL_PASSWORD.length then 1 else 0))),
   ("compression.type", .s "none"),
   ("linger.ms", .n e.JOB_LINGER_MS),
   ("batch.size", .n (e.JOB_MSG_BYTES * e.JOB_BATCH_SIZE)),
   ("queue.buffering.max.kbytes",
     .n ((e.JOB_MSG_BYTES * e.JOB_BATCH_SIZE : ℚ) / 1024)),
   ("acks", .n 1),
   ("enable.idempotence", .b false),
   ("socket.keepalive.enable", .b true)]

lemma ceil_div_le_iff {a b n : Nat} (hb : 0 < b) :
    (a + b - 1) / b ≤ n ↔ a ≤ b * n := by
  rw [Nat.div_le_iff_le_mul_add_pred hb]
  generalize b * n = m
  omega

lemma le_mul_ceil_div {a b : Nat} (hb : 0 < b) : a ≤ b * ((a + b - 1) / b) :=
  (ceil_div_le_iff hb).1 le_rfl

lemma ceil_div_eq_natCeil {a b : Nat} (hb : 0 < b) :
    (a + b - 1) / b = ⌈(a : ℚ) / (b : ℚ)⌉₊ := by
  have hbq : (0 : ℚ) < (b : ℚ) := by exact_mod_cast hb
  apply le_antisymm
  · rw [ceil_div_le_iff hb]
    have h1 : (a : ℚ) / b ≤ (⌈(a : ℚ) / b⌉₊ : ℚ) := Nat.le_ceil _
    rw [div_le_iff₀ hbq] at h1
    have h2 : (a : ℚ) ≤ (b : ℚ) * (⌈(a : ℚ) / b⌉₊ : ℚ) := by linarith
    exact_mod_cast h2
  · rw [Nat.ceil_le, div_le_iff₀ hbq]
    have h := le_mul_ceil_div (a := a) (b := b) hb
    rw [Nat.mul_comm] at h
    exact_mod_cast h

lemma ceil_div_mul_eq_iff {a b : Nat} (hb : 0 < b) :
    ((a + b - 1) / b) * b = a ↔ b ∣ a := by
  constructor
  · intro h
    exact ⟨(a + b - 1) / b, by rw [Nat.mul_comm]; exact h.symm⟩
  · rintro ⟨q, rfl⟩
    have h1 : b * q + b - 1 = b * q + (b - 1) := by
      generalize b * q = m
      omega
    rw [h1, Nat.mul_add_div hb, Nat.div_eq_of_lt (by omega), Nat.add_zero,
      Nat.mul_comm]

lemma send_countP_produceAttempt (i k : Nat) :
    (send i k).countP isProduceAttempt = k + 1 := by
  induction k with
  | zero => rfl
  | succ k ih =>
      simp [send, List.countP_append, List.countP_cons, isProduceAttempt,
        isEnqueuedEv, ih]

lemma send_filter_enqueued (i k : Nat) :
    (send i k).filter isEnqueuedEv = [.enqueued i] := by
  induction k with
  | zero => rfl
  | succ k ih =>
      simp [send, List.filter_append, List.filter_cons, isEnqueuedEv, ih]

lemma send_countP_enqueued (i k : Nat) :
    (send i k).countP isEnqueuedEv = 1 := by
  rw [List.countP_eq_length_filter, send_filter_enqueued]
  rfl

lemma send_countP_bufferError (i k : Nat) :
    (send i k).countP isBufferErrorEv = k := by
  induction k with
  | zero => rfl
  | succ k ih =>
      simp [send, List.countP_append, List.countP_cons, isBufferErrorEv, ih]

lemma send_filter_poll (i k : Nat) :
    (send i k).filter isPollEv = List.replicate k (.pollEv 100) := by
  induction k with
  | zero => rfl
  | succ k ih =>
      simp [send, List.filter_append, List.filter_cons, isPollEv, ih,
        List.replicate_succ]

lemma send_countP_callback (i k : Nat) :
    (send i k).countP isCallbackEv = 0 := by
  induction k with
  | zero => rfl
  | succ k ih =>
      simp [send, List.countP_append, List.countP_cons, isCallbackEv, ih]

lemma send_countP_incr (i k : Nat) :
    (send i k).countP isIncrBytesEv = 0 := by
  induction k with
  | zero => rfl
  | succ k ih =>
      simp [send, List.countP_append, List.countP_cons, isIncrBytesEv, ih]

lemma send_countP_flush (i k : Nat) :
    (send i k).countP isFlushEv = 0 := by
  induction k with
  | zero => rfl
  | succ k ih =>
      simp [send, List.countP_append, List.countP_cons, isFlushEv, ih]

lemma send_countP_reportTotal (i k : Nat) :
    (send i k).countP isReportTotalEv = 0 := by
  induction k with
  | zero => rfl
  | succ k ih =>
      simp [send, List.countP_append, List.countP_cons, isReportTotalEv, ih]

lemma send_countP_batchStart (i k : Nat) :
    (send i k).countP isBatchStartEv = 0 := by
  induction k with
  | zero => rfl
  | succ k ih =>
      simp [send, List.countP_append, List.countP_cons, isBatchStartEv, ih]

lemma send_countP_earlyExit (i k : Nat) :
    (send i k).countP isEarlyExitEv = 0 := by
  induction k with
  | zero => rfl
  | succ k ih =>
      simp [send, List.countP_append, List.countP_cons, isEarlyExitEv, ih]

lemma sendBatch_snd (fulls : Nat → Nat) (M : Nat) :
    ∀ (n : Nat) (s : LoopState),
      (sendBatch fulls M n s).2 =
        ⟨s.running, s.bytes_sent + n * M, s.nextMsg + n⟩ := by
  intro n
  induction n with
  | zero =>
      intro s
      obtain ⟨r, b, m⟩ := s
      simp [sendBatch]
  | succ n ih =>
      intro s
      simp only [sendBatch, ih, LoopState.mk.injEq]
      refine ⟨by trivial, by ring, by ring⟩

lemma sendBatch_countP_enqueued (fulls : Nat → Nat) (M : Nat) :
    ∀ (n : Nat) (s : LoopState),
      (sendBatch fulls M n s).1.countP isEnqueuedEv = n := by
  intro n
  induction n with
  | zero => intro s; rfl
  | succ n ih =>
      intro s
      simp [sendBatch, List.countP_append, List.countP_cons, isEnqueuedEv,
        send_countP_enqueued, ih]
      omega

lemma sendBatch_countP_incr (fulls : Nat → Nat) (M : Nat) :
    ∀ (n : Nat) (s : LoopState),
      (sendBatch fulls M n s).1.countP isIncrBytesEv = n := by
  intro n
  induction n with
  | zero => intro s; rfl
  | succ n ih =>
      intro s
      simp [sendBatch, List.countP_append, List.countP_cons, isIncrBytesEv,
        send_countP_incr, ih]

lemma sendBatch_countP_flush (fulls : Nat → Nat) (M : Nat) :
    ∀ (n : Nat) (s : LoopState),
      (sendBatch fulls M n s).1.countP isFlushEv = 0 := by
  intro n
  induction n with
  | zero => intro s; rfl
  | succ n ih =>
      intro s
      simp [sendBatch, List.countP_append, List.countP_cons, isFlushEv,
        send_countP_flush, ih]

lemma sendBatch_countP_reportTotal (fulls : Nat → Nat) (M : Nat) :
    ∀ (n : Nat) (s : LoopState),
      (sendBatch fulls M n s).1.countP isReportTotalEv = 0 := by
  intro n
  induction n with
  | zero => intro s; rfl
  | succ n ih =>
      intro s
      simp [sendBatch, List.countP_append, List.countP_cons, isReportTotalEv,
        send_countP_reportTotal, ih]

lemma sendBatch_countP_batchStart (fulls : Nat → Nat) (M : Nat) :
    ∀ (n : Nat) (s : LoopState),
      (sendBatch fulls M n s).1.countP isBatchStartEv = 0 := by
  intro n
  induction n with
  | zero => intro s; rfl
  | succ n ih =>
      intro s
      simp [sendBatch, List.countP_append, List.countP_cons, isBatchStartEv,
        send_countP_batchStart, ih]

lemma sendBatch_countP_earlyExit (fulls : Nat → Nat) (M : Nat) :
    ∀ (n : Nat) (s : LoopState),
      (sendBatch fulls M n s).1.countP isEarlyExitEv = 0 := by
  intro n
  induction n with
  | zero => intro s; rfl
  | succ n ih =>
      intro s
      simp [sendBatch, List.countP_append, List.countP_cons, isEarlyExitEv,
        send_countP_earlyExit, ih]

lemma runBatches_running (fulls : Nat → Nat) (M B : Nat) :
    ∀ (n : Nat) (s : LoopState),
      (runBatches fulls M B n s).2.running = s.running := by
  intro n
  induction n with
  | zero => intro s; rfl
  | succ n ih =>
      intro s
      by_cases h : s.running
      · simp [runBatches, h, ih, sendBatch_snd]
      · simp [runBatches, h]

lemma runBatches_snd (fulls : Nat → Nat) (M B : Nat) :
    ∀ (n : Nat) (s : LoopState), s.running = true →
      (runBatches fulls M B n s).2 =
        ⟨true, s.bytes_sent + n * (B * M), s.nextMsg + n * B⟩ := by
  intro n
  induction n with
  | zero =>
      intro s h
      obtain ⟨r, b, m⟩ := s
      simp_all [runBatches]
  | succ n ih =>
      intro s h
      simp only [runBatches, h, if_true]
      rw [ih _ (by rw [sendBatch_snd]; exact h)]
      simp only [sendBatch_snd, LoopState.mk.injEq]
      refine ⟨by trivial, by ring, by ring⟩

lemma runBatches_countP_batchStart (fulls : Nat → Nat) (M B : Nat) :
    ∀ (n : Nat) (s : LoopState), s.running = true →
      (runBatches fulls M B n s).1.countP isBatchStartEv = n := by
  intro n
  induction n with
  | zero => intro s _; rfl
  | succ n ih =>
      intro s h
      simp only [runBatches, h, if_true]
      rw [List.countP_append, List.countP_append]
      rw [ih _ (by rw [sendBatch_snd]; exact h)]
      simp [List.countP_cons, isBatchStartEv, sendBatch_countP_batchStart]
      omega

lemma runBatches_countP_earlyExit (fulls : Nat → Nat) (M B : Nat) :
    ∀ (n : Nat) (s : LoopState), s.running = true →
      (runBatches fulls M B n s).1.countP isEarlyExitEv = 0 := by
  intro n
  induction n with
  | zero => intro s _; rfl
  | succ n ih =>
      intro s h
      simp only [runBatches, h, if_true]
      rw [List.countP_append, List.countP_append]
      rw [ih _ (by rw [sendBatch_snd]; exact h)]
      simp [List.countP_cons, isEarlyExitEv, sendBatch_countP_earlyExit]

lemma runBatches_countP_enqueued (fulls : Nat → Nat) (M B : Nat) :
    ∀ (n : Nat) (s : LoopState), s.running = true →
      (runBatches fulls M B n s).1.countP isEnqueuedEv = n * B := by
  intro n
  induction n with
  | zero => intro s _; simp [runBatches]
  | succ n ih =>
      intro s h
      simp only [runBatches, h, if_true]
      rw [List.countP_append, List.countP_append]
      rw [ih _ (by rw [sendBatch_snd]; exact h)]
      simp [List.countP_cons, isEnqueuedEv, sendBatch_countP_enqueued]
      ring

lemma runBatches_countP_incr (fulls : Nat → Nat) (M B : Nat) :
    ∀ (n : Nat) (s : LoopState), s.running = true →
      (runBatches fulls M B n s).1.countP isIncrBytesEv = n * B := by
  intro n
  induction n with
  | zero => intro s _; simp [runBatches]
  | succ n ih =>
      intro s h
      simp only [runBatches, h, if_true]
      rw [List.countP_append, List.countP_append]
      rw [ih _ (by rw [sendBatch_snd]; exact h)]
      simp [List.countP_cons, isIncrBytesEv, sendBatch_countP_incr]
      ring

lemma runBatches_countP_flush (fulls : Nat → Nat) (M B : Nat) :
    ∀ (n : Nat) (s : LoopState), s.running = true →
      (runBatches fulls M B n s).1.countP isFlushEv = 0 := by
  intro n
  induction n with
  | zero => intro s _; rfl
  | succ n ih =>
      intro s h
      simp only [runBatches, h, if_true]
      rw [List.countP_append, List.countP_append]
      rw [ih _ (by rw [sendBatch_snd]; exact h)]
      simp [List.countP_cons, isFlushEv, sendBatch_countP_flush]

lemma runBatches_countP_reportTotal (fulls : Nat → Nat) (M B : Nat) :
    ∀ (n : Nat) (s : LoopState), s.running = true →
      (runBatches fulls M B n s).1.countP isReportTotalEv = 0 := by
  intro n
  induction n with
  | zero => intro s _; rfl
  | succ n ih =>
      intro s h
      simp only [runBatches, h, if_true]
      rw [List.countP_append, List.countP_append]
      rw [ih _ (by rw [sendBatch_snd]; exact h)]
      simp [List.countP_cons, isReportTotalEv, sendBatch_countP_reportTotal]

lemma foldl_applyEvent (M : Nat) :
    ∀ (l : List Event) (b : Nat),
      l.foldl (applyEvent M) b = b + M * l.countP isIncrBytesEv := by
  intro l
  induction l with
  | nil => intro b; simp
  | cons e l ih =>
      intro b
      cases e <;>
        simp [List.foldl_cons, applyEvent, List.countP_cons, isIncrBytesEv,
          ih] <;> ring

lemma bytesAfter_eq_mul_countP (M : Nat) (l : List Event) :
    bytesAfter M l = M * l.countP isIncrBytesEv := by
  simp [bytesAfter, foldl_applyEvent]

/-- C3: for all positive `T, M, B` the batch planner computes
`total_messages = ⌈T/M⌉` and `batches = ⌈total_messages/B⌉` (the exact
rational ceilings), never underestimates (`T ≤ total_messages * M`, and
`total_messages` is the least such count; likewise
`total_messages ≤ batches * B`), is a pure function of the configuration,
and on `T = 1000, M = 300` yields 4 messages and, with `B = 3`,
2 batches. -/
theorem planner_ceiling (cfg : Config) (hT : 0 < cfg.JOB_MAX_BYTES)
    (hM : 0 < cfg.JOB_MSG_BYTES) (hB : 0 < cfg.JOB_BATCH_SIZE) :
    total_messages cfg =
        ⌈(cfg.JOB_MAX_BYTES : ℚ) / (cfg.JOB_MSG_BYTES : ℚ)⌉₊
    ∧ batches cfg =
        ⌈(total_messages cfg : ℚ) / (cfg.JOB_BATCH_SIZE : ℚ)⌉₊
    ∧ cfg.JOB_MAX_BYTES ≤ total_messages cfg * cfg.JOB_MSG_BYTES
    ∧ (∀ n : Nat,
        cfg.JOB_MAX_BYTES ≤ n * cfg.JOB_MSG_BYTES → total_messages cfg ≤ n)
    ∧ total_messages cfg ≤ batches cfg * cfg.JOB_BATCH_SIZE
    ∧ total_messages ⟨1000, 300, 3⟩ = 4 ∧ batches ⟨1000, 300, 3⟩ = 2 := by
  have h1 := le_mul_ceil_div (a := cfg.JOB_MAX_BYTES) hM
  have h2 := le_mul_ceil_div (a := total_messages cfg) hB
  refine ⟨ceil_div_eq_natCeil hM, ceil_div_eq_natCeil hB, ?_, ?_, ?_,
    by decide, by decide⟩
  · rw [Nat.mul_comm]
    exact h1
  · intro n hn
    exact (ceil_div_le_iff hM).2 (by rwa [Nat.mul_comm] at hn)
  · rw [Nat.mul_comm]
    exact h2

/-- C3 witness: the planner theorem instantiated at the spec's example
`T = 1000, M = 300, B = 3`. -/
theorem planner_ceiling_witness : total_messages ⟨1000, 300, 3⟩ = 4 :=
  (planner_ceiling ⟨1000, 300, 3⟩ (by decide) (by decide)
    (by decide)).2.2.2.2.2.1

/-- C1 counterexample: at `T = 1000, M = 300, B = 3` (and a client that
never reports buffer-full) the byte counter after the full run is
`1800 = batches * B * M`, not `total_messages * M = 1200`: the inner loop
of line 107 always issues `JOB_BATCH_SIZE` sends, so the final partial
batch is not truncated. -/
theorem bytes_sent_ne_total_messages_mul :
    (mainFinal (Config.mk 1000 300 3) (fun _ => 0)).bytes_sent ≠
      total_messages (Config.mk 1000 300 3) *
        (Config.mk 1000 300 3).JOB_MSG_BYTES := by decide

/-- C1 (amended): after a full, uncancelled run the cumulative byte
counter equals `batches * (B * M)` exactly — the code sends `B` full
messages in every outer iteration, the final one included — regardless of
how many backpressure retries occurred (the counter is independent of the
buffer-full oracle).  This is at least `total_messages * M`, with equality
exactly when `B` divides `total_messages`. -/
theorem bytes_sent_full_run (cfg : Config) (fulls fulls₂ : Nat → Nat)
    (hM : 0 < cfg.JOB_MSG_BYTES) (hB : 0 < cfg.JOB_BATCH_SIZE) :
    (mainFinal cfg fulls).bytes_sent =
        batches cfg * (cfg.JOB_BATCH_SIZE * cfg.JOB_MSG_BYTES)
    ∧ total_messages cfg * cfg.JOB_MSG_BYTES ≤ (mainFinal cfg fulls).bytes_sent
    ∧ ((mainFinal cfg fulls).bytes_sent =
          total_messages cfg * cfg.JOB_MSG_BYTES
        ↔ cfg.JOB_BATCH_SIZE ∣ total_messages cfg)
    ∧ (mainFinal cfg fulls).bytes_sent = (mainFinal cfg fulls₂).bytes_sent := by
  have hbytes : ∀ f : Nat → Nat, (mainFinal cfg f).bytes_sent =
      batches cfg * (cfg.JOB_BATCH_SIZE * cfg.JOB_MSG_BYTES) := by
    intro f
    unfold mainFinal
    rw [runBatches_snd _ _ _ _ _ rfl]
    simp [initState]
  have hle : total_messages cfg ≤ batches cfg * cfg.JOB_BATCH_SIZE := by
    rw [Nat.mul_comm]
    exact le_mul_ceil_div hB
  refine ⟨hbytes fulls, ?_, ?_, by rw [hbytes fulls, hbytes fulls₂]⟩
  · rw [hbytes fulls, ← Nat.mul_assoc]
    exact Nat.mul_le_mul_right _ hle
  · rw [hbytes fulls, ← Nat.mul_assoc]
    constructor
    · intro h
      have h2 : batches cfg * cfg.JOB_BATCH_SIZE = total_messages cfg :=
        Nat.eq_of_mul_eq_mul_right hM h
      exact (ceil_div_mul_eq_iff hB).1 h2
    · intro h
      have h2 : batches cfg * cfg.JOB_BATCH_SIZE = total_messages cfg :=
        (ceil_div_mul_eq_iff hB).2 h
      rw [h2]

/-- C1 witness: the amended byte-total theorem instantiated at
`T = 1000, M = 300, B = 3` (bytes sent `= 2 * (3 * 300) = 1800`). -/
theorem bytes_sent_full_run_witness :
    (mainFinal ⟨1000, 300, 3⟩ (fun _ => 1)).bytes_sent =
      batches ⟨1000, 300, 3⟩ * (3 * 300) :=
  (bytes_sent_full_run ⟨1000, 300, 3⟩ (fun _ => 1) (fun _ => 0) (by decide)
    (by decide)).1

/-- C2 counterexample: at `T = 1000, M = 300, B = 3`, where
`total_messages = 4` and `total_messages mod B ≠ 0`, the run issues 6
`send` calls (messages enqueued), not `total_messages = 4`: the final
batch issues the full `B = 3` sends rather than the 1 remaining
message. -/
theorem sends_total_ne_total_messages :
    (mainTrace (Config.mk 1000 300 3) (fun _ => 0)).countP isEnqueuedEv ≠
      total_messages (Config.mk 1000 300 3) := by decide

/-- C2 (amended): every outer batch iteration — the final one included —
issues exactly `B` `send` calls (each enqueueing exactly one message), so
a full run issues `batches * B` sends in total; this total is at least
`total_messages` (and exceeds it whenever `B` does not divide
`total_messages`). -/
theorem sends_per_batch (cfg : Config) (fulls : Nat → Nat)
    (hB : 0 < cfg.JOB_BATCH_SIZE) :
    (∀ s : LoopState,
      (sendBatch fulls cfg.JOB_MSG_BYTES cfg.JOB_BATCH_SIZE s).1.countP
          isEnqueuedEv = cfg.JOB_BATCH_SIZE)
    ∧ (mainTrace cfg fulls).countP isEnqueuedEv =
        batches cfg * cfg.JOB_BATCH_SIZE
    ∧ total_messages cfg ≤ (mainTrace cfg fulls).countP isEnqueuedEv := by
  have htot : (mainTrace cfg fulls).countP isEnqueuedEv =
      batches cfg * cfg.JOB_BATCH_SIZE := by
    simp only [mainTrace, List.countP_append]
    rw [runBatches_countP_enqueued _ _ _ _ _ rfl]
    simp [List.countP_cons, isEnqueuedEv]
  refine ⟨fun s => sendBatch_countP_enqueued _ _ _ s, htot, ?_⟩
  rw [htot, Nat.mul_comm]
  exact le_mul_ceil_div hB

/-- C2 witness: the amended per-batch send-count theorem instantiated at
`T = 1000, M = 300, B = 3` (6 sends in total). -/
theorem sends_per_batch_witness :
    (mainTrace ⟨1000, 300, 3⟩ (fun _ => 2)).countP isEnqueuedEv =
      batches ⟨1000, 300, 3⟩ * 3 :=
  (sends_per_batch ⟨1000, 300, 3⟩ (fun _ => 2) (by decide)).2.1

/-- C4: against a client that raises buffer-full for the first `k`
produce attempts of a message and accepts attempt `k + 1`, one `send`
call performs exactly `k + 1` produce attempts, enqueues exactly that one
message once (no skip, no duplicate), sees exactly `k` buffer-full
conditions, none of which produces a failure/callback event, and between
consecutive attempts performs exactly one bounded 100 ms poll
(`producer.poll(0.1)` — `k` polls in all, each time-bounded, while `k`
itself is unbounded). -/
theorem send_retry_contract (i k : Nat) :
    (send i k).countP isProduceAttempt = k + 1
    ∧ (send i k).filter isEnqueuedEv = [.enqueued i]
    ∧ (send i k).countP isBufferErrorEv = k
    ∧ (send i k).filter isPollEv = List.replicate k (.pollEv 100)
    ∧ (send i k).countP isCallbackEv = 0 :=
  ⟨send_countP_produceAttempt i k, send_filter_enqueued i k,
    send_countP_bufferError i k, send_filter_poll i k,
    send_countP_callback i k⟩

/-- C5: in every execution the trace decomposes as the batch-loop events
followed by exactly one blocking flush and then the final total report:
no flush and no total report occur inside the loop, the single flush
precedes the report, and the reported total counts exactly `M` bytes per
message actually enqueued before the flush. -/
theorem flush_once_before_report (cfg : Config) (fulls : Nat → Nat) :
    ∃ pre : List Event,
      mainTrace cfg fulls =
          pre ++ [.flushEv, .reportTotal (mainFinal cfg fulls).bytes_sent]
      ∧ pre.countP isFlushEv = 0
      ∧ pre.countP isReportTotalEv = 0
      ∧ (mainFinal cfg fulls).bytes_sent =
          cfg.JOB_MSG_BYTES * pre.countP isEnqueuedEv := by
  refine ⟨(runBatches fulls cfg.JOB_MSG_BYTES cfg.JOB_BATCH_SIZE (batches cfg)
    initState).1, rfl, runBatches_countP_flush _ _ _ _ _ rfl,
    runBatches_countP_reportTotal _ _ _ _ _ rfl, ?_⟩
  rw [runBatches_countP_enqueued _ _ _ _ _ rfl]
  unfold mainFinal
  rw [runBatches_snd _ _ _ _ _ rfl]
  simp [initState]
  ring

/-- C7: the cumulative byte counter starts at 0, is incremented by
exactly `M` at each `bytes_sent += JOB_MSG_BYTES` statement (which the
loop executes right after each successful enqueue), is changed by no
other event (polls, callbacks, flush, reports all leave it fixed), is
monotonically non-decreasing along every prefix of the run trace, and the
fold of these single-threaded updates over the whole trace reproduces
exactly the final counter value of the run. -/
theorem byte_counter_monotone (cfg : Config) (fulls : Nat → Nat) :
    bytesAfter cfg.JOB_MSG_BYTES (mainTrace cfg fulls) =
        (mainFinal cfg fulls).bytes_sent
    ∧ bytesAfter cfg.JOB_MSG_BYTES ([] : List Event) = 0
    ∧ (∀ l₁ l₂ : List Event,
        bytesAfter cfg.JOB_MSG_BYTES l₁ ≤
          bytesAfter cfg.JOB_MSG_BYTES (l₁ ++ l₂))
    ∧ (∀ b : Nat,
        applyEvent cfg.JOB_MSG_BYTES b .incrBytes = b + cfg.JOB_MSG_BYTES)
    ∧ (∀ (b : Nat) (ev : Event),
        applyEvent cfg.JOB_MSG_BYTES b ev = b ∨ ev = .incrBytes) := by
  refine ⟨?_, rfl, ?_, fun b => rfl, ?_⟩
  · rw [bytesAfter_eq_mul_countP]
    simp only [mainTrace, List.countP_append]
    rw [runBatches_countP_incr _ _ _ _ _ rfl]
    unfold mainFinal
    rw [runBatches_snd _ _ _ _ _ rfl]
    simp [initState, List.countP_cons, isIncrBytesEv]
    ring
  · intro l₁ l₂
    rw [bytesAfter_eq_mul_countP, bytesAfter_eq_mul_countP,
      List.countP_append, Nat.mul_add]
    exact Nat.le_add_right _ _
  · intro b ev
    cases ev <;> simp [applyEvent]

/-- C10: the cooperative stop flag `running` is assigned `True` once
(line 74) and no statement of the program ever changes it: the loop body
preserves it from every state, so the early-exit `break` is never taken,
the outer loop performs exactly `batches` iterations, and the flag is
still `True` when the loop ends. -/
theorem running_never_cleared (cfg : Config) (fulls : Nat → Nat) :
    (mainTrace cfg fulls).countP isBatchStartEv = batches cfg
    ∧ (mainTrace cfg fulls).countP isEarlyExitEv = 0
    ∧ (mainFinal cfg fulls).running = true
    ∧ (∀ (n : Nat) (s : LoopState),
        (runBatches fulls cfg.JOB_MSG_BYTES cfg.JOB_BATCH_SIZE n s).2.running
          = s.running) := by
  refine ⟨?_, ?_, ?_, fun n s => runBatches_running _ _ _ n s⟩
  · simp only [mainTrace, List.countP_append]
    rw [runBatches_countP_batchStart _ _ _ _ _ rfl]
    simp [List.countP_cons, isBatchStartEv]
  · simp only [mainTrace, List.countP_append]
    rw [runBatches_countP_earlyExit _ _ _ _ _ rfl]
    simp [List.countP_cons, isEarlyExitEv]
  · unfold mainFinal
    rw [runBatches_running]
    rfl

lemma string_append_cancel_left {s t u : String} (h : s ++ t = s ++ u) :
    t = u := by
  have hd : (s ++ t).data = (s ++ u).data := by rw [h]
  simp only [String.data_append] at hd
  exact String.ext (List.append_cancel_left hd)

lemma string_append_cancel_right {s t u : String} (h : t ++ s = u ++ s) :
    t = u := by
  have hd : (t ++ s).data = (u ++ s).data := by rw [h]
  simp only [String.data_append] at hd
  exact String.ext (List.append_cancel_right hd)

lemma string_ne_empty_length_pos {s : String} (h : s ≠ "") : 0 < s.length := by
  obtain ⟨data⟩ := s
  cases data with
  | nil => exact absurd rfl h
  | cons c cs => simp [String.length]

/-- C6: a delivery callback invoked with an error writes exactly one line
to the error channel (stderr), carrying the failed message's offset and
the error detail (the detail is recoverable from the line: distinct
errors give distinct lines); a callback invoked with success writes
nothing; and in either case the callback mutates no state — in
particular a callback event never changes the byte counter, and the
callback performs no retry (its entire effect is the returned stderr
lines). -/
theorem delivery_callback_contract (e : String) (off : Nat) :
    (on_delivery_cb (some e) off).length = 1
    ∧ on_delivery_cb (some e) off =
        ["Delivery failed for offset=" ++ toString off ++ " error=" ++ e
          ++ "\n"]
    ∧ on_delivery_cb none off = []
    ∧ (∀ (M b : Nat) (err : Option String) (o : Nat),
        applyEvent M b (.callbackEv err o) = b)
    ∧ (∀ e₂ : String,
        on_delivery_cb (some e) off = on_delivery_cb (some e₂) off →
          e = e₂) := by
  refine ⟨rfl, rfl, rfl, fun M b err o => rfl, ?_⟩
  intro e₂ h
  simp only [on_delivery_cb, List.cons.injEq, and_true] at h
  have h1 : ("Delivery failed for offset=" ++ toString off ++ " error=")
      ++ e = ("Delivery failed for offset=" ++ toString off ++ " error=")
      ++ e₂ := by
    have h2 := string_append_cancel_right h
    simpa [String.append_assoc] using h2
  exact string_append_cancel_left h1

/-- C6 witness: the callback contract instantiated at a concrete error
and offset. -/
theorem delivery_callback_contract_witness :
    (on_delivery_cb (some "broker timeout") 3).length = 1 :=
  (delivery_callback_contract "broker timeout" 3).1

lemma producerConfig_lookup_password (e : Env) :
    (producerConfig e).lookup "sasl.password" =
      some (.s (pyStrMul "******"
        (if 0 < e.KAFKA_SASL_PASSWORD.length then 1 else 0))) := by
  rfl

/-- C9: the configuration dictionary handed to the broker client masks
the SASL password: its `sasl.password` entry is the literal `"******"`
whenever the configured password is non-empty and `""` when it is empty,
and two environments that agree on everything except their (non-empty)
password contents produce identical client configurations — the real
password influences the configuration only through whether it is
empty. -/
theorem sasl_password_masked (e₁ e₂ : Env)
    (h₁ : e₁.KAFKA_SASL_PASSWORD ≠ "") (h₂ : e₂.KAFKA_SASL_PASSWORD ≠ "")
    (heq : e₂ = { e₁ with KAFKA_SASL_PASSWORD := e₂.KAFKA_SASL_PASSWORD }) :
    (producerConfig e₁).lookup "sasl.password" = some (.s "******")
    ∧ (∀ e : Env, e.KAFKA_SASL_PASSWORD = "" →
        (producerConfig e).lookup "sasl.password" = some (.s ""))
    ∧ producerConfig e₁ = producerConfig e₂ := by
  have hmask : ∀ e : Env, e.KAFKA_SASL_PASSWORD ≠ "" →
      (producerConfig e).lookup "sasl.password" = some (.s "******") := by
    intro e he
    rw [producerConfig_lookup_password,
      if_pos (string_ne_empty_length_pos he)]
    rfl
  refine ⟨hmask e₁ h₁, ?_, ?_⟩
  · intro e he
    rw [producerConfig_lookup_password, if_neg (by simp [he])]
    rfl
  · obtain ⟨b₁, sp₁, m₁, u₁, p₁, t₁, mb₁, xb₁, l₁, bs₁⟩ := e₁
    obtain ⟨b₂, sp₂, m₂, u₂, p₂, t₂, mb₂, xb₂, l₂, bs₂⟩ := e₂
    simp only [Env.mk.injEq] at heq
    obtain ⟨hb, hsp, hm, hu, _, ht, hmb, hxb, hl, hbs⟩ := heq
    subst hb hsp hm hu ht hmb hxb hl hbs
    simp only [producerConfig, List.cons.injEq, Prod.mk.injEq,
      ConfValue.s.injEq, and_true, true_and]
    rw [if_pos (string_ne_empty_length_pos h₁),
      if_pos (string_ne_empty_length_pos h₂)]

/-- C9 witness: two environments differing only in their non-empty
passwords yield the same client configuration. -/
theorem sasl_password_masked_witness :
    producerConfig ⟨"k1:9092", "SASL_SSL", "SCRAM-SHA-256", "user",
        "hunter2", "jobs", 300, 1000, 100, 3⟩ =
      producerConfig ⟨"k1:9092", "SASL_SSL", "SCRAM-SHA-256", "user",
        "correct horse battery staple", "jobs", 300, 1000, 100, 3⟩ :=
  (sasl_password_masked _ _ (by decide) (by decide) (by decide)).2.2

lemma scaleLoop_five (fb u0 u1 u2 u3 u4 : String) (x : ℚ) :
    ∃ i : Nat, i ≤ 5
      ∧ (scaleLoop fb x [u0, u1, u2, u3, u4]).1 = x / 1024 ^ i
      ∧ (scaleLoop fb x [u0, u1, u2, u3, u4]).2 =
          [u0, u1, u2, u3, u4].getD i fb
      ∧ (i < 5 → (scaleLoop fb x [u0, u1, u2, u3, u4]).1 < 1024)
      ∧ (∀ j : Nat, j < i → 1024 ≤ x / 1024 ^ j) := by
  have e1 : x / 1024 = x / 1024 ^ 1 := by norm_num
  have e2 : x / 1024 / 1024 = x / 1024 ^ 2 := by
    rw [div_div]; norm_num
  have e3 : x / 1024 / 1024 / 1024 = x / 1024 ^ 3 := by
    rw [div_div, div_div]; norm_num
  have e4 : x / 1024 / 1024 / 1024 / 1024 = x / 1024 ^ 4 := by
    rw [div_div, div_div, div_div]; norm_num
  have e5 : x / 1024 / 1024 / 1024 / 1024 / 1024 = x / 1024 ^ 5 := by
    rw [div_div, div_div, div_div, div_div]; norm_num
  by_cases h0 : x < 1024
  · have hs : scaleLoop fb x [u0, u1, u2, u3, u4] = (x, u0) := by
      simp only [scaleLoop, if_pos h0]
    exact ⟨0, by omega, by rw [hs]; simp, by rw [hs]; rfl, fun _ => by
      rw [hs]; exact h0, by intro j hj; omega⟩
  by_cases h1 : x / 1024 < 1024
  · have hs : scaleLoop fb x [u0, u1, u2, u3, u4] = (x / 1024, u1) := by
      simp only [scaleLoop, if_neg h0, if_pos h1]
    refine ⟨1, by omega, by rw [hs]; exact e1, by rw [hs]; rfl, fun _ => by
      rw [hs]; exact h1, ?_⟩
    intro j hj
    interval_cases j
    simpa using le_of_not_lt h0
  by_cases h2 : x / 1024 / 1024 < 1024
  · have hs : scaleLoop fb x [u0, u1, u2, u3, u4] =
        (x / 1024 / 1024, u2) := by
      simp only [scaleLoop, if_neg h0, if_neg h1, if_pos h2]
    refine ⟨2, by omega, by rw [hs]; exact e2, by rw [hs]; rfl, fun _ => by
      rw [hs]; exact h2, ?_⟩
    intro j hj
    interval_cases j
    · simpa using le_of_not_lt h0
    · rw [← e1]
      exact le_of_not_lt h1
  by_cases h3 : x / 1024 / 1024 / 1024 < 1024
  · have hs : scaleLoop fb x [u0, u1, u2, u3, u4] =
        (x / 1024 / 1024 / 1024, u3) := by
      simp only [scaleLoop, if_neg h0, if_neg h1, if_neg h2, if_pos h3]
    refine ⟨3, by omega, by rw [hs]; exact e3, by rw [hs]; rfl, fun _ => by
      rw [hs]; exact h3, ?_⟩
    intro j hj
    interval_cases j
    · simpa using le_of_not_lt h0
    · rw [← e1]
      exact le_of_not_lt h1
    · rw [← e2]
      exact le_of_not_lt h2
  by_cases h4 : x / 1024 / 1024 / 1024 / 1024 < 1024
  · have hs : scaleLoop fb x [u0, u1, u2, u3, u4] =
        (x / 1024 / 1024 / 1024 / 1024, u4) := by
      simp only [scaleLoop, if_neg h0, if_neg h1, if_neg h2, if_neg h3,
        if_pos h4]
    refine ⟨4, by omega, by rw [hs]; exact e4, by rw [hs]; rfl, fun _ => by
      rw [hs]; exact h4, ?_⟩
    intro j hj
    interval_cases j
    · simpa using le_of_not_lt h0
    · rw [← e1]
      exact le_of_not_lt h1
    · rw [← e2]
      exact le_of_not_lt h2
    · rw [← e3]
      exact le_of_not_lt h3
  · have hs : scaleLoop fb x [u0, u1, u2, u3, u4] =
        (x / 1024 / 1024 / 1024 / 1024 / 1024, fb) := by
      simp only [scaleLoop, if_neg h0, if_neg h1, if_neg h2, if_neg h3,
        if_neg h4]
    refine ⟨5, by omega, by rw [hs]; exact e5, by rw [hs]; rfl,
      fun h => absurd h (by omega), ?_⟩
    intro j hj
    interval_cases j
    · simpa using le_of_not_lt h0
    · rw [← e1]
      exact le_of_not_lt h1
    · rw [← e2]
      exact le_of_not_lt h2
    · rw [← e3]
      exact le_of_not_lt h3
    · rw [← e4]
      exact le_of_not_lt h4

/-- C8: the reported throughput is `bytes / max(elapsed, ε)` with the
fixed positive guard `ε = 10⁻⁹` (the divisor is positive for every
elapsed time, so the division is always guarded); `_fmt_bytes` renders
with 3 decimal places and `_fmt_rate` with 2; and for every non-negative
input each formatter walks the 1024-based ladder `B/KB/MB/GB/TB/PB`
(`"/s"`-suffixed for rates), choosing the first unit under which the
scaled value — the input divided by `1024^i` — is below 1024, with `PB`
as final fallback (every skipped unit had a scaled value of at least
1024). -/
theorem reporter_contract (n bps : ℚ) (hn : 0 ≤ n) (hb : 0 ≤ bps) :
    0 < epsilon
    ∧ (∀ bytes elapsed : ℚ,
        reportedRate bytes elapsed = bytes / max elapsed epsilon
        ∧ 0 < max elapsed epsilon)
    ∧ (_fmt_bytes n).2 = 3
    ∧ (_fmt_rate bps).2 = 2
    ∧ (∃ i : Nat, i ≤ 5
        ∧ (_fmt_bytes n).1.1 = n / 1024 ^ i
        ∧ (_fmt_bytes n).1.2 = allUnits.getD i "PB"
        ∧ (i < 5 → (_fmt_bytes n).1.1 < 1024)
        ∧ (∀ j : Nat, j < i → 1024 ≤ n / 1024 ^ j))
    ∧ (∃ i : Nat, i ≤ 5
        ∧ (_fmt_rate bps).1.1 = bps / 1024 ^ i
        ∧ (_fmt_rate bps).1.2 = allUnits.getD i "PB" ++ "/s"
        ∧ (i < 5 → (_fmt_rate bps).1.1 < 1024)
        ∧ (∀ j : Nat, j < i → 1024 ≤ bps / 1024 ^ j)) := by
  have heps : (0 : ℚ) < epsilon := by norm_num [epsilon]
  refine ⟨heps, fun bytes elapsed =>
    ⟨rfl, lt_of_lt_of_le heps (le_max_right _ _)⟩, rfl, rfl, ?_, ?_⟩
  · obtain ⟨i, h5, hv, hu, hlt, hj⟩ :=
      scaleLoop_five "PB" "B" "KB" "MB" "GB" "TB" n
    refine ⟨i, h5, hv, ?_, hlt, hj⟩
    rw [show (_fmt_bytes n).1.2 =
      (scaleLoop "PB" n ["B", "KB", "MB", "GB", "TB"]).2 from rfl, hu]
    interval_cases i <;> rfl
  · obtain ⟨i, h5, hv, hu, hlt, hj⟩ :=
      scaleLoop_five "PB/s" "B/s" "KB/s" "MB/s" "GB/s" "TB/s" bps
    refine ⟨i, h5, hv, ?_, hlt, hj⟩
    rw [show (_fmt_rate bps).1.2 =
      (scaleLoop "PB/s" bps ["B/s", "KB/s", "MB/s", "GB/s", "TB/s"]).2
      from rfl, hu]
    interval_cases i <;> rfl

/-- C8 witness: the reporter theorem instantiated at concrete
non-negative inputs. -/
theorem reporter_contract_witness : (_fmt_bytes 1500).2 = 3 :=
  (reporter_contract 1500 2 (by decide) (by decide)).2.2.1

